import Mathlib

/-!
Shallow embedding of the 0x53 DNS-sinkhole resolution engine:
the blocklist manager (`internal/blocklist`, package `blocklist`) and the
DNS query handler (`internal/dns`, package `dns`).

Go strings are modelled as `List Char`; Go `map[string]struct{}` values are
modelled as duplicate-free `List (List Char)` built by insert-if-absent, so
`len(map)` is the list length.  Network and disk I/O are modelled as explicit
parameters (an upstream oracle, a fetch oracle) and explicit "persisted"
state fields; `config.Save` is modelled as copying the in-memory
configuration into the persisted fields (its file I/O succeeding).
-/

abbrev GoStr := List Char

/-- ASCII lowering of one character; `strings.ToLower` restricted to the
ASCII range (domain names in this system are ASCII). -/
def asciiToLowerChar (c : Char) : Char :=
  if 'A' ≤ c ∧ c ≤ 'Z' then Char.ofNat (c.toNat + 32) else c

/-- `strings.ToLower`. -/
def goToLower (s : GoStr) : GoStr := s.map asciiToLowerChar

/-- `unicode.IsSpace` over the characters that can occur here: the ASCII
whitespace set plus NEL and NBSP from Latin-1. -/
def goIsSpace (c : Char) : Bool :=
  c = ' ' || c = '\t' || c = '\n' || c = '\r' ||
  c.toNat = 11 || c.toNat = 12 || c.toNat = 133 || c.toNat = 160

/-- `strings.TrimSuffix(s, ".")`: removes one trailing dot if present. -/
def trimSuffixDot (s : GoStr) : GoStr :=
  if s.getLast? = some '.' then s.dropLast else s

/-- `strings.TrimSpace`. -/
def goTrimSpace (s : GoStr) : GoStr :=
  ((s.dropWhile goIsSpace).reverse.dropWhile goIsSpace).reverse

/-- `line[:strings.Index(line, "#")]` when `#` occurs, the whole line
otherwise (the comment-stripping idiom used by both parsers). -/
def takeUntilHash : GoStr → GoStr
  | [] => []
  | c :: r => if c = '#' then [] else c :: takeUntilHash r

/-- Split at every character satisfying `p`, keeping empty pieces. -/
def splitPred (p : Char → Bool) : GoStr → List GoStr
  | [] => [[]]
  | c :: r =>
    if p c then [] :: splitPred p r
    else
      match splitPred p r with
      | [] => [[c]]
      | t :: ts => (c :: t) :: ts

/-- `strings.Fields`: whitespace-separated tokens, empties dropped. -/
def goFields (s : GoStr) : List GoStr :=
  (splitPred goIsSpace s).filter (fun t => t ≠ [])

/-- `bufio.ScanLines` drops one trailing carriage return from each line. -/
def dropCR (s : GoStr) : GoStr :=
  if s.getLast? = some '\r' then s.dropLast else s

/-- The sequence of lines produced by `bufio.Scanner` with `ScanLines`:
split on newline, drop the empty token after a final newline. -/
def scanLines (content : GoStr) : List GoStr :=
  let parts := splitPred (fun c => c = '\n') content
  (if parts.getLast? = some [] then parts.dropLast else parts).map dropCR

/-- `parseHostsLine` (internal/blocklist): extracts the domain from a
"0.0.0.0 domain.com"-style line, empty result meaning "no rule". -/
def parseHostsLine (line : GoStr) : GoStr :=
  if line = [] || line.head? = some '#' then []
  else
    let l := takeUntilHash line
    let fields := goFields l
    if 2 ≤ fields.length then
      let addr := fields.getD 0 []
      if addr = ("0.0.0.0").data || addr = ("127.0.0.1").data ||
         addr = ("::1").data || addr = ("0").data then
        goToLower (fields.getD 1 [])
      else []
    else []

/-- The raw/wildcard-format branch of the per-line parse in
`Manager.LoadBlocklists`: strip a trailing comment, trim, lowercase. -/
def parseRawLine (line : GoStr) : GoStr :=
  let l := goTrimSpace (takeUntilHash line)
  if l ≠ [] then goToLower l else []

/-- `config.BlocklistSource`. -/
structure BlocklistSource where
  name : GoStr
  url : GoStr
  format : GoStr
  enabled : Bool
deriving DecidableEq

/-- Insert-if-absent, modelling `m[k] = struct{}{}` on a Go map rendered as
a duplicate-free list (a later duplicate insert is a no-op). -/
def insertDomain (m : List GoStr) (d : GoStr) : List GoStr :=
  if m.contains d then m else m ++ [d]

/-- The per-source parse loop of `Manager.LoadBlocklists`: trim each scanned
line, parse it by format, normalize one trailing dot away, accumulate into
the source-local set. -/
def parseContent (format : GoStr) (content : GoStr) : List GoStr :=
  (scanLines content).foldl
    (fun acc rawLine =>
      let line := goTrimSpace rawLine
      let domain :=
        if format = ("hosts").data then parseHostsLine line else parseRawLine line
      if domain ≠ [] then insertDomain acc (trimSuffixDot domain) else acc)
    []

/-- The in-memory manager state (`blocklist.Manager` plus its view of the
configuration and of the persisted configuration file). -/
structure Manager where
  domains : List GoStr
  allowlistMap : List GoStr
  cfgAllowlist : List GoStr
  cfgBlocklists : List BlocklistSource
  diskAllowlist : List GoStr
  diskBlocklists : List BlocklistSource
deriving DecidableEq

/-- `Manager.LoadBlocklists`: for each enabled source, fetch (the oracle
returns `none` on a fetch failure, which contributes nothing), parse into a
local set, merge all into a fresh set, and install it as `domains`. -/
def loadBlocklists (fetch : BlocklistSource → Option GoStr) (m : Manager) : Manager :=
  let newMap := m.cfgBlocklists.foldl
    (fun acc src =>
      if src.enabled then
        match fetch src with
        | none => acc
        | some content => (parseContent src.format content).foldl insertDomain acc
      else acc)
    []
  { m with domains := newMap }

/-- The subdomain-walking loop of `Manager.IsBlocked`: repeatedly advance
past the first dot and test the remaining suffix for membership. -/
def walkBlocked (domains : List GoStr) : GoStr → Bool
  | [] => false
  | c :: rest =>
    if c = '.' then domains.contains rest || walkBlocked domains rest
    else walkBlocked domains rest

/-- Query normalization in `Manager.IsBlocked`: lowercase, strip one
trailing dot. -/
def normalizeQuery (d : GoStr) : GoStr := trimSuffixDot (goToLower d)

/-- `Manager.IsBlocked`: allowlist exact match wins, then exact ruleset
match, then the ancestor walk. -/
def Manager.IsBlocked (m : Manager) (d : GoStr) : Bool :=
  let n := normalizeQuery d
  if m.allowlistMap.contains n then false
  else if m.domains.contains n then true
  else walkBlocked m.domains n

/-- `Manager.Stats`: the size of the rule set. -/
def Manager.Stats (m : Manager) : Nat := m.domains.length

/-- The search-and-set loop of `Manager.ToggleSource`: `none` when no
source bears the name, otherwise the list with the first match's
`enabled` flag replaced. -/
def toggleSourceList (sources : List BlocklistSource) (nm : GoStr) (enabled : Bool) :
    Option (List BlocklistSource) :=
  match sources with
  | [] => none
  | src :: rest =>
    if src.name = nm then some ({ src with enabled := enabled } :: rest)
    else
      match toggleSourceList rest nm enabled with
      | none => none
      | some rest' => some (src :: rest')

/-- `Manager.ToggleSource`: on a match, mutate that source's flag and
persist the configuration (`config.Save`); otherwise report the error with
nothing mutated. -/
def Manager.ToggleSource (m : Manager) (nm : GoStr) (enabled : Bool) :
    Manager × Except GoStr Unit :=
  match toggleSourceList m.cfgBlocklists nm enabled with
  | none => (m, Except.error (("source not found: ").data ++ nm))
  | some bl' =>
    ({ m with cfgBlocklists := bl', diskBlocklists := bl',
              diskAllowlist := m.cfgAllowlist },
     Except.ok ())

/-- `Manager.AddAllowed`: trim+lowercase, reject empty, insert into the
lookup map and (if absent) the configured list, persist. -/
def Manager.AddAllowed (m : Manager) (domain : GoStr) : Manager × Except GoStr Unit :=
  let d := goToLower (goTrimSpace domain)
  if d = [] then (m, Except.error ("empty domain").data)
  else
    let cfgA := if m.cfgAllowlist.contains d then m.cfgAllowlist
                else m.cfgAllowlist ++ [d]
    ({ m with allowlistMap := insertDomain m.allowlistMap d,
              cfgAllowlist := cfgA,
              diskAllowlist := cfgA, diskBlocklists := m.cfgBlocklists },
     Except.ok ())

/-- `Manager.RemoveAllowed`: trim+lowercase, delete from the lookup map,
filter out of the configured list, persist. -/
def Manager.RemoveAllowed (m : Manager) (domain : GoStr) : Manager × Except GoStr Unit :=
  let d := goToLower (goTrimSpace domain)
  let cfgA := m.cfgAllowlist.filter (fun x => x ≠ d)
  ({ m with allowlistMap := m.allowlistMap.filter (fun x => x ≠ d),
            cfgAllowlist := cfgA,
            diskAllowlist := cfgA, diskBlocklists := m.cfgBlocklists },
   Except.ok ())

/-- `Manager.ListAllowed`: the configured allowlist is the source of truth. -/
def Manager.ListAllowed (m : Manager) : List GoStr := m.cfgAllowlist

/-! ### DNS query handler (`internal/dns`, package `dns`) -/

/-- `dns.TypeA`. -/
def typeA : Nat := 1
/-- `dns.TypeAAAA`. -/
def typeAAAA : Nat := 28
/-- `dns.OpcodeQuery`. -/
def opcodeQuery : Nat := 0
/-- `dns.RcodeSuccess`. -/
def rcodeSuccess : Nat := 0
/-- `dns.RcodeServerFailure`. -/
def rcodeServerFailure : Nat := 2

/-- One question of a DNS message (`dns.Question`, the fields used here). -/
structure Question where
  name : GoStr
  qtype : Nat
deriving DecidableEq

/-- One answer record, rendered as the textual resource record the code
builds with `dns.NewRR` ("name 3600 IN A 0.0.0.0" and the AAAA twin). -/
structure RR where
  name : GoStr
  rtype : Nat
  ttl : Nat
  rdata : GoStr
deriving DecidableEq

/-- A DNS message (`dns.Msg`, the fields this code reads or writes). -/
structure Msg where
  id : Nat
  opcode : Nat
  response : Bool
  rcode : Nat
  question : List Question
  answer : List RR
deriving DecidableEq

/-- `(new(dns.Msg)).SetReply(request)` from the miekg/dns library: echo the
identifier and opcode, mark as response with a success rcode, and copy the
FIRST question only (the library keeps `request.Question[0]` alone when the
request has any question). -/
def setReply (request : Msg) : Msg :=
  { id := request.id
    opcode := request.opcode
    response := true
    rcode := rcodeSuccess
    question := match request.question with
      | [] => []
      | q :: _ => [q]
    answer := [] }

/-- The answer-building loop of `Server.sinkhole`: A questions map to
`0.0.0.0`, AAAA questions to `::`, other types contribute nothing. -/
def sinkholeAnswers : List Question → List RR
  | [] => []
  | q :: rest =>
    if q.qtype = typeA then
      ⟨q.name, typeA, 3600, ("0.0.0.0").data⟩ :: sinkholeAnswers rest
    else if q.qtype = typeAAAA then
      ⟨q.name, typeAAAA, 3600, ("::").data⟩ :: sinkholeAnswers rest
    else sinkholeAnswers rest

/-- `Server.sinkhole`: the message written for a blocked query. -/
def sinkhole (r : Msg) : Msg :=
  { setReply r with answer := sinkholeAnswers r.question }

/-- `Server.forward`: exchange with the upstream oracle (`none` models an
exchange error); on error write a SERVFAIL reply, on success write the
upstream response verbatim.  The returned message is what `WriteMsg` sends. -/
def forward (upstream : Msg → Option Msg) (r : Msg) : Msg :=
  match upstream r with
  | none => { setReply r with rcode := rcodeServerFailure }
  | some resp => resp

/-- The two query counters of `dns.Server` (`statsQueries`, `statsBlocked`). -/
structure Stats where
  queries : Nat
  blocked : Nat
deriving DecidableEq

/-- `Server.Stats`: the pair (total queries, blocked queries). -/
def serverStatsFn (st : Stats) : Nat × Nat := (st.queries, st.blocked)

/-- One log-callback emission of the handler. -/
inductive LogEvent where
  | blockedEv (name : GoStr)
  | allowedEv (name : GoStr)
deriving DecidableEq

/-- The question loop of `Server.handleRequest`: classify in array order;
the first blocked question increments the blocked counter, writes the
sinkhole reply and stops; if none blocks, the message is forwarded.
Result: (counters, messages written, log events emitted). -/
def processQuestions (bl : GoStr → Bool) (upstream : Msg → Option Msg) (r : Msg)
    (st : Stats) (logs : List LogEvent) :
    List Question → Stats × List Msg × List LogEvent
  | [] => (st, [forward upstream r], logs)
  | q :: rest =>
    let lookupName := trimSuffixDot q.name
    if bl lookupName then
      ({ st with blocked := st.blocked + 1 }, [sinkhole r],
       logs ++ [LogEvent.blockedEv lookupName])
    else
      processQuestions bl upstream r st (logs ++ [LogEvent.allowedEv lookupName]) rest

/-- `Server.handleRequest`: non-standard opcodes are forwarded without
counting or classification; otherwise the total counter is incremented once
and the questions are processed in order. -/
def handleRequest (bl : GoStr → Bool) (upstream : Msg → Option Msg)
    (st : Stats) (r : Msg) : Stats × List Msg × List LogEvent :=
  if r.opcode ≠ opcodeQuery then (st, [forward upstream r], [])
  else
    processQuestions bl upstream r { st with queries := st.queries + 1 } [] r.question

/-- The counters reached after the handler serves a sequence of datagrams. -/
def runHandler (bl : GoStr → Bool) (upstream : Msg → Option Msg)
    (st : Stats) (msgs : List Msg) : Stats :=
  msgs.foldl (fun s r => (handleRequest bl upstream s r).1) st

/-! ### Spec-side characterizations (written from the specification's words,
to be compared with the definitions above) -/

/-- Spec wording: the ancestor suffixes of a domain, "obtained by repeatedly
stripping the leftmost label up to and including the first separator". -/
def specAncestorSuffixes : GoStr → List GoStr
  | [] => []
  | c :: rest =>
    if c = '.' then rest :: specAncestorSuffixes rest else specAncestorSuffixes rest

/-- Spec wording of the classifier: blocked iff the normalized domain is not
allowlisted and it, or one of its ancestor suffixes, is in the ruleset. -/
def specIsBlocked (m : Manager) (d : GoStr) : Bool :=
  let n := normalizeQuery d
  !m.allowlistMap.contains n &&
    (m.domains.contains n ||
     (specAncestorSuffixes n).any (fun a => m.domains.contains a))

/-- Spec wording of the hosts parser: after discarding text from the first
hash onward, a line yields the lowercased second token exactly when it has
at least two tokens and its first token is one of the four null-route
addresses. -/
def specParseHostsLine (line : GoStr) : GoStr :=
  let toks := goFields (takeUntilHash line)
  if 2 ≤ toks.length ∧
     (toks.getD 0 [] = ("0.0.0.0").data ∨ toks.getD 0 [] = ("127.0.0.1").data ∨
      toks.getD 0 [] = ("::1").data ∨ toks.getD 0 [] = ("0").data) then
    goToLower (toks.getD 1 [])
  else []

/-- Spec wording of the per-datagram handler state machine: non-query
opcodes pass through uncounted; otherwise count the datagram once, classify
questions in array order, and let the first blocked question win. -/
def specHandleRequest (bl : GoStr → Bool) (upstream : Msg → Option Msg)
    (st : Stats) (r : Msg) : Stats × List Msg × List LogEvent :=
  if r.opcode ≠ opcodeQuery then (st, [forward upstream r], [])
  else
    let st' := { st with queries := st.queries + 1 }
    let pre := r.question.takeWhile (fun q => !bl (trimSuffixDot q.name))
    let preLogs := pre.map (fun q => LogEvent.allowedEv (trimSuffixDot q.name))
    match r.question.dropWhile (fun q => !bl (trimSuffixDot q.name)) with
    | [] => (st', [forward upstream r], preLogs)
    | qb :: _ =>
      ({ st' with blocked := st'.blocked + 1 }, [sinkhole r],
       preLogs ++ [LogEvent.blockedEv (trimSuffixDot qb.name)])

/-- The sinkhole reply as the code actually builds it: identifier and opcode
echoed, success rcode, the FIRST question echoed, and one answer per A/AAAA
question of the original message. -/
def specSinkholeReply (r : Msg) : Msg :=
  { id := r.id
    opcode := r.opcode
    response := true
    rcode := rcodeSuccess
    question := r.question.take 1
    answer := r.question.filterMap (fun q =>
      if q.qtype = typeA then some ⟨q.name, typeA, 3600, ("0.0.0.0").data⟩
      else if q.qtype = typeAAAA then some ⟨q.name, typeAAAA, 3600, ("::").data⟩
      else none) }

/-- The reply written when the upstream exchange fails: a server-failure
reply echoing the identifier. -/
def specServFailReply (r : Msg) : Msg :=
  { id := r.id
    opcode := r.opcode
    response := true
    rcode := rcodeServerFailure
    question := r.question.take 1
    answer := [] }

/-! ### Concrete scenario inputs -/

/-- The single hosts-format source of the spec's concrete load scenario. -/
def c6Source : BlocklistSource :=
  ⟨("test").data, ("http://lists.invalid/hosts.txt").data, ("hosts").data, true⟩

/-- The scenario content: two rule lines, a commented-out line, a blank line. -/
def c6Content : GoStr :=
  ("127.0.0.1 example.com\n0.0.0.0 ads.doubleclick.net\n# 127.0.0.1 ignored\n\n").data

/-- The manager after loading the scenario source. -/
def c6Manager : Manager :=
  loadBlocklists (fun _ => some c6Content) ⟨[], [], [], [c6Source], [], []⟩

/-- A standard query carrying two questions, used to exercise multi-question
reply synthesis. -/
def twoQuestionMsg : Msg :=
  { id := 42
    opcode := 0
    response := false
    rcode := 0
    question := [⟨("ads.example.com.").data, typeA⟩, ⟨("ads.example.com.").data, typeAAAA⟩]
    answer := [] }

/-- A manager whose ruleset holds a non-normalized entry with a trailing
dot, as the loader produces from a hosts line ending in two dots. -/
def dottedRuleManager : Manager :=
  ⟨[("example.com.").data], [], [], [], [], []⟩

/-- A manager holding one normalized rule, for allowlist round-trips. -/
def oneRuleManager : Manager :=
  ⟨[("example.com").data], [], [], [], [], []⟩

/-- A manager with one configured source, for toggle scenarios. -/
def oneSourceManager : Manager :=
  ⟨[], [], [], [⟨("AdAway").data, ("http://u.invalid").data, ("hosts").data, true⟩], [], []⟩

/-! ### Theorems -/

theorem walkBlocked_eq_any (ds : List GoStr) :
    ∀ d : GoStr, walkBlocked ds d = (specAncestorSuffixes d).any (fun a => ds.contains a)
  | [] => rfl
  | c :: rest => by
    by_cases h : c = '.' <;>
      simp [walkBlocked, specAncestorSuffixes, h, walkBlocked_eq_any ds rest]

/-- Claim C1: `IsBlocked(D)` returns true if and only if the normalized form
of `D` (lowercased, one trailing dot stripped) is not an exact member of the
allowlist and either that normalized domain or one of its ancestor suffixes
(repeatedly stripping the leftmost label through the first dot) is a member
of the current ruleset; otherwise it returns false. -/
theorem IsBlocked_eq_specIsBlocked (m : Manager) (d : GoStr) :
    m.IsBlocked d = specIsBlocked m d := by
  by_cases h1 : m.allowlistMap.contains (normalizeQuery d) <;>
    by_cases h2 : m.domains.contains (normalizeQuery d) <;>
      simp [Manager.IsBlocked, specIsBlocked, walkBlocked_eq_any, h1, h2]

/-- Witness for C1 at a concrete manager and domain. -/
theorem IsBlocked_eq_specIsBlocked_inst :
    c6Manager.IsBlocked ("sub.ads.doubleclick.net").data =
      specIsBlocked c6Manager ("sub.ads.doubleclick.net").data :=
  IsBlocked_eq_specIsBlocked c6Manager (("sub.ads.doubleclick.net").data)

/-- Claim C5: a hosts-format line yields the lowercased second
whitespace-separated token exactly when, after discarding text from the
first hash onward, the line has at least two tokens and its first token is
one of `0.0.0.0`, `127.0.0.1`, `::1`, `0`; every other line yields no rule. -/
theorem parseHostsLine_eq_spec (line : GoStr) :
    parseHostsLine line = specParseHostsLine line := by
  cases line with
  | nil => rfl
  | cons c rest =>
    by_cases hc : c = '#'
    · subst hc; rfl
    · by_cases h2 : 2 ≤ (goFields (takeUntilHash (c :: rest))).length
      · simp [parseHostsLine, specParseHostsLine, hc, h2, or_assoc]
      · simp [parseHostsLine, specParseHostsLine, hc, h2]

/-- Witness for C5 at a concrete line. -/
theorem parseHostsLine_eq_spec_inst :
    parseHostsLine ("127.0.0.1 Example.COM # ad host").data =
      specParseHostsLine ("127.0.0.1 Example.COM # ad host").data :=
  parseHostsLine_eq_spec (("127.0.0.1 Example.COM # ad host").data)

/-- Claim C6: loading the single hosts source whose content is the lines
`127.0.0.1 example.com`, `0.0.0.0 ads.doubleclick.net`, `# 127.0.0.1
ignored` and a blank line yields exactly 2 rules, and afterwards
`example.com` and `sub.ads.doubleclick.net` are blocked while `google.com`
is not. -/
theorem loadScenario_two_rules :
    c6Manager.Stats = 2 ∧
    c6Manager.IsBlocked ("example.com").data = true ∧
    c6Manager.IsBlocked ("sub.ads.doubleclick.net").data = true ∧
    c6Manager.IsBlocked ("google.com").data = false := by
  refine ⟨rfl, rfl, rfl, rfl⟩

theorem processQuestions_spec (bl : GoStr → Bool) (up : Msg → Option Msg) (r : Msg) :
    ∀ (qs : List Question) (st : Stats) (logs : List LogEvent),
      processQuestions bl up r st logs qs =
        match qs.dropWhile (fun q => !bl (trimSuffixDot q.name)) with
        | [] => (st, [forward up r],
                 logs ++ qs.map (fun q => LogEvent.allowedEv (trimSuffixDot q.name)))
        | qb :: _ =>
          ({ st with blocked := st.blocked + 1 }, [sinkhole r],
           logs ++ (qs.takeWhile (fun q => !bl (trimSuffixDot q.name))).map
             (fun q => LogEvent.allowedEv (trimSuffixDot q.name)) ++
           [LogEvent.blockedEv (trimSuffixDot qb.name)])
  | [], st, logs => by simp [processQuestions, List.dropWhile]
  | q :: rest, st, logs => by
    by_cases hb : bl (trimSuffixDot q.name)
    · simp [processQuestions, List.dropWhile, List.takeWhile, hb]
    · have ih := processQuestions_spec bl up r rest st
        (logs ++ [LogEvent.allowedEv (trimSuffixDot q.name)])
      simp only [processQuestions, hb, if_false, Bool.false_eq_true, ite_false]
      rw [ih]
      cases hdrop : rest.dropWhile (fun q => !bl (trimSuffixDot q.name)) <;>
        simp [List.dropWhile, List.takeWhile, hb, hdrop, List.append_assoc]

/-- Claim C2: a datagram whose opcode is not a standard query is forwarded
with no classification and no counter change; otherwise the total counter is
incremented exactly once, questions are classified in array order, and the
first blocked question increments the blocked counter once, makes the
written message the sinkhole reply to the whole datagram, and stops all
further classification and forwarding. -/
theorem handleRequest_eq_specHandleRequest (bl : GoStr → Bool)
    (up : Msg → Option Msg) (st : Stats) (r : Msg) :
    handleRequest bl up st r = specHandleRequest bl up st r := by
  by_cases h : r.opcode = opcodeQuery
  · simp only [handleRequest, specHandleRequest, h, ne_eq, not_true_eq_false, ite_false,
      if_false]
    rw [processQuestions_spec]
    cases hdrop : List.dropWhile (fun q => !bl (trimSuffixDot q.name)) r.question with
    | nil =>
      rw [List.takeWhile_eq_self_iff.mpr (List.dropWhile_eq_nil_iff.mp hdrop)]
      simp [hdrop]
    | cons qb tl => simp [hdrop]
  · simp [handleRequest, specHandleRequest, h]

/-- Witness for C2 at a concrete blocklist, upstream, counters and message. -/
theorem handleRequest_eq_specHandleRequest_inst :
    handleRequest (fun d => d == ("ads.example.com").data) (fun _ => none)
        ⟨5, 3⟩ twoQuestionMsg =
      specHandleRequest (fun d => d == ("ads.example.com").data) (fun _ => none)
        ⟨5, 3⟩ twoQuestionMsg :=
  handleRequest_eq_specHandleRequest _ _ _ _

theorem sinkholeAnswers_eq_filterMap :
    ∀ qs : List Question,
      sinkholeAnswers qs = qs.filterMap (fun q =>
        if q.qtype = typeA then some ⟨q.name, typeA, 3600, ("0.0.0.0").data⟩
        else if q.qtype = typeAAAA then some ⟨q.name, typeAAAA, 3600, ("::").data⟩
        else none)
  | [] => rfl
  | q :: rest => by
    by_cases hA : q.qtype = 1
    · simp [sinkholeAnswers, hA, typeA, typeAAAA, sinkholeAnswers_eq_filterMap rest]
    · by_cases h6 : q.qtype = 28 <;>
        simp [sinkholeAnswers, hA, h6, typeA, typeAAAA,
          sinkholeAnswers_eq_filterMap rest]

/-- Counterexample to C3 as stated: for a message carrying two questions,
the sinkhole reply does not echo the original questions — the reply
construction keeps only the first question. -/
theorem sinkhole_question_echo_cex :
    (sinkhole twoQuestionMsg).question ≠ twoQuestionMsg.question := by decide

/-- Claim C3 (amended): the sinkhole reply echoes the original identifier,
carries a success response code, echoes the FIRST question of the original
message (not all of them), and contains, for every question of type A, one
answer mapping its name to 0.0.0.0 and, for every question of type AAAA,
one answer mapping its name to ::, other types contributing no answer. -/
theorem sinkhole_eq_specSinkholeReply (r : Msg) :
    sinkhole r = specSinkholeReply r := by
  obtain ⟨i, o, rsp, rc, qs, ans⟩ := r
  cases qs <;>
    simp [sinkhole, specSinkholeReply, setReply, sinkholeAnswers_eq_filterMap,
      List.take_succ_cons, List.take_zero]

/-- Witness for C3 (amended) at a concrete two-question message. -/
theorem sinkhole_eq_specSinkholeReply_inst :
    sinkhole twoQuestionMsg = specSinkholeReply twoQuestionMsg :=
  sinkhole_eq_specSinkholeReply twoQuestionMsg

theorem processQuestions_writes_one (bl : GoStr → Bool) (up : Msg → Option Msg) (r : Msg) :
    ∀ (qs : List Question) (st : Stats) (logs : List LogEvent),
      ((processQuestions bl up r st logs qs).2.1).length = 1
  | [], st, logs => rfl
  | q :: rest, st, logs => by
    by_cases hb : bl (trimSuffixDot q.name) <;>
      simp [processQuestions, hb, processQuestions_writes_one bl up r rest]

/-- Claim C4: when the upstream exchange fails, the handler writes back a
server-failure reply to the requester; and on every code path the handler
writes exactly one reply, so no inbound query is left unanswered. -/
theorem forward_servfail_total (up : Msg → Option Msg) (r : Msg)
    (bl : GoStr → Bool) (st : Stats) :
    (up r = none → forward up r = specServFailReply r) ∧
    ((handleRequest bl up st r).2.1).length = 1 := by
  constructor
  · intro h
    obtain ⟨i, o, rsp, rc, qs, ans⟩ := r
    cases qs <;> simp [forward, h, setReply, specServFailReply]
  · by_cases h : r.opcode = opcodeQuery <;>
      simp [handleRequest, h, processQuestions_writes_one]

/-- Witness for C4: a concrete failing upstream yields the concrete
server-failure reply, and the handler writes exactly one message. -/
theorem forward_servfail_total_inst :
    forward (fun _ => none) twoQuestionMsg = specServFailReply twoQuestionMsg ∧
    ((handleRequest (fun _ => false) (fun _ => none) ⟨0, 0⟩ twoQuestionMsg).2.1).length = 1 :=
  ⟨(forward_servfail_total (fun _ => none) twoQuestionMsg (fun _ => false) ⟨0, 0⟩).1 rfl,
   (forward_servfail_total (fun _ => none) twoQuestionMsg (fun _ => false) ⟨0, 0⟩).2⟩

theorem contains_insertDomain (l : List GoStr) (d : GoStr) :
    (insertDomain l d).contains d = true := by
  by_cases h : l.contains d <;> simp_all [insertDomain]

theorem contains_filter_ne (l : List GoStr) (d : GoStr) :
    (l.filter (fun x => x ≠ d)).contains d = false := by
  simp [List.mem_filter]

/-- Counterexample to C7 as stated: the loader-reachable ruleset holding the
non-normalized entry `example.com.` (produced from a hosts line ending in
two dots) contains `example.com.` exactly, the allow-add and allow-remove
operations on it succeed, yet after the removal `IsBlocked("example.com.")`
is not true — query normalization strips the trailing dot, so the entry
never matched in the first place and no blocked classification is
"restored". -/
theorem allow_roundtrip_cex :
    ("example.com.").data ∈ dottedRuleManager.domains ∧
    (dottedRuleManager.AddAllowed ("example.com.").data).2 = Except.ok () ∧
    ((dottedRuleManager.AddAllowed ("example.com.").data).1.RemoveAllowed
        ("example.com.").data).2 = Except.ok () ∧
    ((dottedRuleManager.AddAllowed ("example.com.").data).1.RemoveAllowed
        ("example.com.").data).1.IsBlocked ("example.com.").data ≠ true := by
  exact ⟨by decide, rfl, rfl, by decide⟩

/-- Claim C7 (amended): for every domain D exactly present in the ruleset
that is in normalized form (nonempty, lowercase, no surrounding whitespace,
no trailing dot): after AddAllowed(D) succeeds, ListAllowed() contains D and
IsBlocked(D) = false; after a subsequent RemoveAllowed(D) succeeds,
IsBlocked(D) = true again. -/
theorem allow_roundtrip_restores (m : Manager) (d : GoStr)
    (hmem : d ∈ m.domains) (hne : d ≠ [])
    (hts : goTrimSpace d = d) (htl : goToLower d = d) (htd : trimSuffixDot d = d) :
    (m.AddAllowed d).2 = Except.ok () ∧
    d ∈ (m.AddAllowed d).1.ListAllowed ∧
    (m.AddAllowed d).1.IsBlocked d = false ∧
    ((m.AddAllowed d).1.RemoveAllowed d).2 = Except.ok () ∧
    ((m.AddAllowed d).1.RemoveAllowed d).1.IsBlocked d = true := by
  have hdd : goToLower (goTrimSpace d) = d := by rw [hts, htl]
  have hnorm : normalizeQuery d = d := by rw [normalizeQuery, htl, htd]
  refine ⟨?_, ?_, ?_, ?_, ?_⟩
  · simp [Manager.AddAllowed, hdd, hne]
  · by_cases hc : m.cfgAllowlist.contains d <;>
      simp_all [Manager.AddAllowed, Manager.ListAllowed, hdd, hne, hc]
  · have hin : d ∈ insertDomain m.allowlistMap d := by
      by_cases h : m.allowlistMap.contains d <;> simp_all [insertDomain]
    simp [Manager.AddAllowed, Manager.IsBlocked, hdd, hne, hnorm, hin]
  · simp [Manager.AddAllowed, Manager.RemoveAllowed, hdd, hne]
  · simp [Manager.AddAllowed, Manager.RemoveAllowed, Manager.IsBlocked, hdd, hne,
      hnorm, contains_filter_ne, hmem]

/-- Witness for C7 (amended) at a concrete one-rule manager. -/
theorem allow_roundtrip_restores_inst :
    (("example.com").data ∈ oneRuleManager.domains ∧ ("example.com").data ≠ ([] : GoStr) ∧
     goTrimSpace ("example.com").data = ("example.com").data ∧
     goToLower ("example.com").data = ("example.com").data ∧
     trimSuffixDot ("example.com").data = ("example.com").data) ∧
    ((oneRuleManager.AddAllowed ("example.com").data).2 = Except.ok () ∧
     ("example.com").data ∈ (oneRuleManager.AddAllowed ("example.com").data).1.ListAllowed ∧
     (oneRuleManager.AddAllowed ("example.com").data).1.IsBlocked ("example.com").data = false ∧
     ((oneRuleManager.AddAllowed ("example.com").data).1.RemoveAllowed
         ("example.com").data).2 = Except.ok () ∧
     ((oneRuleManager.AddAllowed ("example.com").data).1.RemoveAllowed
         ("example.com").data).1.IsBlocked ("example.com").data = true) :=
  ⟨⟨by decide, by decide, by decide, by decide, by decide⟩,
   allow_roundtrip_restores oneRuleManager (("example.com").data)
     (by decide) (by decide) (by decide) (by decide) (by decide)⟩

theorem toggleSourceList_not_found (nm : GoStr) (b : Bool) :
    ∀ l : List BlocklistSource, (∀ src ∈ l, src.name ≠ nm) →
      toggleSourceList l nm b = none
  | [], _ => rfl
  | src :: rest, h => by
    have h1 : src.name ≠ nm := h src (List.mem_cons_self src rest)
    have ih := toggleSourceList_not_found nm b rest
      (fun s hs => h s (List.mem_cons_of_mem src hs))
    simp [toggleSourceList, h1, ih]

theorem toggleSourceList_found (nm : GoStr) (b : Bool) (src : BlocklistSource)
    (post : List BlocklistSource) (hsrc : src.name = nm) :
    ∀ pre : List BlocklistSource, (∀ s ∈ pre, s.name ≠ nm) →
      toggleSourceList (pre ++ src :: post) nm b =
        some (pre ++ { src with enabled := b } :: post)
  | [], _ => by simp [toggleSourceList, hsrc]
  | p :: pre, h => by
    have h1 : p.name ≠ nm := h p (List.mem_cons_self p pre)
    have ih := toggleSourceList_found nm b src post hsrc pre
      (fun s hs => h s (List.mem_cons_of_mem p hs))
    simp [toggleSourceList, h1, ih]

/-- Claim C8: toggling an unknown source name returns an error and mutates
nothing; toggling a known name sets exactly that (first matching) source's
enabled flag, leaves every other source and all other state untouched, and
persists the changed configuration. -/
theorem toggleSource_spec (m : Manager) (nm : GoStr) (b : Bool) :
    ((∀ src ∈ m.cfgBlocklists, src.name ≠ nm) →
       m.ToggleSource nm b = (m, Except.error (("source not found: ").data ++ nm))) ∧
    (∀ (pre : List BlocklistSource) (src : BlocklistSource) (post : List BlocklistSource),
       m.cfgBlocklists = pre ++ src :: post →
       (∀ s ∈ pre, s.name ≠ nm) → src.name = nm →
       (m.ToggleSource nm b).2 = Except.ok () ∧
       (m.ToggleSource nm b).1.cfgBlocklists = pre ++ { src with enabled := b } :: post ∧
       (m.ToggleSource nm b).1.diskBlocklists = pre ++ { src with enabled := b } :: post ∧
       (m.ToggleSource nm b).1.domains = m.domains ∧
       (m.ToggleSource nm b).1.allowlistMap = m.allowlistMap ∧
       (m.ToggleSource nm b).1.cfgAllowlist = m.cfgAllowlist) := by
  constructor
  · intro h
    simp [Manager.ToggleSource, toggleSourceList_not_found nm b _ h]
  · intro pre src post hsplit hpre hsrc
    have hfound := toggleSourceList_found nm b src post hsrc pre hpre
    simp [Manager.ToggleSource, hsplit, hfound]

/-- Witness for C8: one unknown-name call errors with no mutation, one
known-name call flips the flag and persists it. -/
theorem toggleSource_spec_inst :
    oneSourceManager.ToggleSource ("missing").data true =
      (oneSourceManager, Except.error (("source not found: ").data ++ ("missing").data)) ∧
    ((oneSourceManager.ToggleSource ("AdAway").data false).2 = Except.ok () ∧
     (oneSourceManager.ToggleSource ("AdAway").data false).1.cfgBlocklists =
       [({ name := ("AdAway").data, url := ("http://u.invalid").data,
           format := ("hosts").data, enabled := false } : BlocklistSource)] ∧
     (oneSourceManager.ToggleSource ("AdAway").data false).1.diskBlocklists =
       [({ name := ("AdAway").data, url := ("http://u.invalid").data,
           format := ("hosts").data, enabled := false } : BlocklistSource)] ∧
     (oneSourceManager.ToggleSource ("AdAway").data false).1.domains =
       oneSourceManager.domains ∧
     (oneSourceManager.ToggleSource ("AdAway").data false).1.allowlistMap =
       oneSourceManager.allowlistMap ∧
     (oneSourceManager.ToggleSource ("AdAway").data false).1.cfgAllowlist =
       oneSourceManager.cfgAllowlist) :=
  ⟨(toggleSource_spec oneSourceManager (("missing").data) true).1 (by decide),
   (toggleSource_spec oneSourceManager (("AdAway").data) false).2 []
     ⟨("AdAway").data, ("http://u.invalid").data, ("hosts").data, true⟩ [] rfl
     (by simp) rfl⟩

/-- Claim C9: running the loader twice over the same enabled sources with
unchanged content yields the same final rule count and the same IsBlocked
classification for every domain. -/
theorem loadBlocklists_idempotent (fetch : BlocklistSource → Option GoStr) (m : Manager) :
    (loadBlocklists fetch (loadBlocklists fetch m)).Stats =
      (loadBlocklists fetch m).Stats ∧
    ∀ d : GoStr, (loadBlocklists fetch (loadBlocklists fetch m)).IsBlocked d =
      (loadBlocklists fetch m).IsBlocked d := by
  have h : loadBlocklists fetch (loadBlocklists fetch m) = loadBlocklists fetch m := rfl
  exact ⟨by rw [h], fun d => by rw [h]⟩

/-- Witness for C9 at the concrete scenario source and content. -/
theorem loadBlocklists_idempotent_inst :
    (loadBlocklists (fun _ => some c6Content)
        (loadBlocklists (fun _ => some c6Content) ⟨[], [], [], [c6Source], [], []⟩)).Stats =
      (loadBlocklists (fun _ => some c6Content) ⟨[], [], [], [c6Source], [], []⟩).Stats ∧
    (loadBlocklists (fun _ => some c6Content)
        (loadBlocklists (fun _ => some c6Content) ⟨[], [], [], [c6Source], [], []⟩)).IsBlocked
        ("example.com").data =
      (loadBlocklists (fun _ => some c6Content)
        ⟨[], [], [], [c6Source], [], []⟩).IsBlocked ("example.com").data :=
  ⟨(loadBlocklists_idempotent (fun _ => some c6Content) ⟨[], [], [], [c6Source], [], []⟩).1,
   (loadBlocklists_idempotent (fun _ => some c6Content) ⟨[], [], [], [c6Source], [], []⟩).2
     (("example.com").data)⟩

theorem processQuestions_stats (bl : GoStr → Bool) (up : Msg → Option Msg) (r : Msg) :
    ∀ (qs : List Question) (st : Stats) (logs : List LogEvent),
      (processQuestions bl up r st logs qs).1 = st ∨
      (processQuestions bl up r st logs qs).1 = { st with blocked := st.blocked + 1 }
  | [], st, logs => Or.inl rfl
  | q :: rest, st, logs => by
    by_cases hb : bl (trimSuffixDot q.name)
    · right; simp [processQuestions, hb]
    · simpa [processQuestions, hb] using
        processQuestions_stats bl up r rest st
          (logs ++ [LogEvent.allowedEv (trimSuffixDot q.name)])

theorem handleRequest_counter_le (bl : GoStr → Bool) (up : Msg → Option Msg)
    (st : Stats) (r : Msg) (h : st.blocked ≤ st.queries) :
    (handleRequest bl up st r).1.blocked ≤ (handleRequest bl up st r).1.queries := by
  by_cases hop : r.opcode = opcodeQuery
  · simp only [handleRequest, hop, ne_eq, not_true_eq_false, ite_false, if_false]
    rcases processQuestions_stats bl up r r.question
        { st with queries := st.queries + 1 } [] with hEq | hEq <;>
      rw [hEq] <;> simp <;> omega
  · simpa [handleRequest, hop] using h

theorem runHandler_le (bl : GoStr → Bool) (up : Msg → Option Msg) :
    ∀ (msgs : List Msg) (st : Stats), st.blocked ≤ st.queries →
      (runHandler bl up st msgs).blocked ≤ (runHandler bl up st msgs).queries
  | [], _, h => h
  | r :: rest, st, h => by
    simp only [runHandler, List.foldl_cons]
    exact runHandler_le bl up rest (handleRequest bl up st r).1
      (handleRequest_counter_le bl up st r h)

/-- Claim C10: starting from zeroed counters, after any sequence of handled
datagrams the blocked-queries counter never exceeds the total-queries
counter, so the stats report never shows more blocked than total. -/
theorem blocked_le_total (bl : GoStr → Bool) (up : Msg → Option Msg) (msgs : List Msg) :
    (serverStatsFn (runHandler bl up ⟨0, 0⟩ msgs)).2 ≤
      (serverStatsFn (runHandler bl up ⟨0, 0⟩ msgs)).1 :=
  runHandler_le bl up msgs ⟨0, 0⟩ (Nat.le_refl 0)

/-- Witness for C10 at a concrete blocklist, upstream and message sequence. -/
theorem blocked_le_total_inst :
    (serverStatsFn (runHandler (fun d => d == ("ads.example.com").data) (fun _ => none)
        ⟨0, 0⟩ [twoQuestionMsg, twoQuestionMsg])).2 ≤
      (serverStatsFn (runHandler (fun d => d == ("ads.example.com").data) (fun _ => none)
        ⟨0, 0⟩ [twoQuestionMsg, twoQuestionMsg])).1 :=
  blocked_le_total (fun d => d == ("ads.example.com").data) (fun _ => none)
    [twoQuestionMsg, twoQuestionMsg]
